import Mathlib

/-!
Shallow embedding of the `zato-labs` business-state-transition engine
(`src/bst/src/zato/bst/core.py`) and proofs about the claims of the
specification.

Modelling conventions:
* Python dicts become association lists with first-occurrence lookup and
  in-place overwrite (`aset`); keys stay unique because every dict starts
  empty and is only written through `aset`.
* Python sets (`Node.edges`, `Definition._non_root`) become
  insertion-ordered duplicate-free lists (`sinsert`).
* Redis hashes (one hash per `def_tag`, field-indexed by `object_tag`)
  become association lists keyed by the pair `(def_tag, object_tag)`.
* JSON `dumps`/`loads` round-trip exactly on the state records involved, so
  serialization is modelled as the identity and records are stored
  structurally.
* Sources of nondeterminism that the code reads from the environment
  (`uuid4().hex` in `Definition.get_name`, `datetime.utcnow()` in
  `StateMachine.get_transition_info`) are passed in as explicit arguments.
-/

namespace BST

/-- First-occurrence lookup in an association list (Python `d[k]` / `d.get(k)`). -/
def alookup {κ α : Type} [DecidableEq κ] : List (κ × α) → κ → Option α
  | [], _ => none
  | (k', v) :: rest, k => if k' = k then some v else alookup rest k

/-- Overwrite-or-append update of an association list (Python `d[k] = v`):
the first entry with the key is replaced in place, otherwise the pair is
appended, mirroring dict insertion semantics. -/
def aset {κ α : Type} [DecidableEq κ] : List (κ × α) → κ → α → List (κ × α)
  | [], k, v => [(k, v)]
  | (k', v') :: rest, k, v => if k' = k then (k, v) :: rest else (k', v') :: aset rest k v

/-- Python `set.add`: append the element unless it is already present. -/
def sinsert (l : List String) (x : String) : List String :=
  if x ∈ l then l else l ++ [x]

/-- Python `str.replace(' ', '.')`: every space becomes a dot.  Written
structurally over the character list so that proofs can evaluate it. -/
def replaceSpaceDot (s : String) : String :=
  String.mk (s.data.map (fun c => if c = ' ' then '.' else c))

/-- Python's default `str.strip()` whitespace set. -/
def pyIsSpace (c : Char) : Bool :=
  c == ' ' || c == '\t' || c == '\n' || c == '\r' || c == '\x0b' || c == '\x0c'

/-- Python `str.strip()`: drop leading and trailing whitespace. -/
def pyStrip (s : String) : String :=
  String.mk (((s.data.dropWhile pyIsSpace).reverse.dropWhile pyIsSpace).reverse)

/-- Python `<` on strings: lexicographic comparison of code points. -/
def strLtB : List Char → List Char → Bool
  | [], [] => false
  | [], _ :: _ => true
  | _ :: _, [] => false
  | a :: as, b :: bs =>
    if a.val < b.val then true
    else if b.val < a.val then false
    else strLtB as bs

/-- `a ≤ b` on strings in Python's total order. -/
def strLeB (a b : String) : Bool := ! strLtB b.data a.data

/-- Insertion into an ascending list, used to model Python `sorted`. -/
def insSorted (s : String) : List String → List String
  | [] => [s]
  | t :: ts => if strLeB s t then s :: t :: ts else t :: insSorted s ts

/-- Python `sorted` on strings: ascending lexicographic order. -/
def sortStrings (l : List String) : List String :=
  l.foldr insSorted []

/-- `CONST.NO_SUCH_NODE` from the source. -/
def CONST.NO_SUCH_NODE : String := "NO_SUCH_NODE"

/-- `CONST.DEFAULT_GRAPH_VERSION` (the integer `1`, rendered as a string the
way `'{}.v{}'.format` would render it). -/
def CONST.DEFAULT_GRAPH_VERSION : String := "1"

/-- Result of `Definition.add_edge`: the decorated Python function returns the
literal `True` on success and an `AddEdgeResult(False, error_code, details)`
object on validation failure. -/
inductive AddEdgeResult where
  | ok : AddEdgeResult
  | failure (error_code : String) (details : String) : AddEdgeResult
deriving DecidableEq, Repr

/-- `Node`: an individual node in a graph (name, opaque data, out-edge set). -/
structure Node where
  name : String
  data : String
  edges : List String
deriving DecidableEq, Repr

/-- `Node.add_edge`: `self.edges.add(to)`. -/
def Node.add_edge (n : Node) (to_ : String) : Node :=
  { n with edges := sinsert n.edges to_ }

/-- `Node.has_edge`: `to in self.edges`. -/
def Node.has_edge (n : Node) (to_ : String) : Bool :=
  to_ ∈ n.edges

/-- `Definition`: a graph of nodes and the bookkeeping fields `_non_root`
(every node some edge ever targeted) and `_roots` (the lazily computed roots
cache, `None` until first read). -/
structure Definition where
  name : String
  version : String
  tag : String
  nodes : List (String × Node)
  _non_root : List String
  _roots : Option (List String)
deriving DecidableEq, Repr

/-- `Definition.get_tag`: `'{}.v{}'.format(name, version)`. -/
def Definition.get_tag (name version : String) : String :=
  name ++ ".v" ++ version

/-- `Definition.format_name`: `name.replace(' ', '.').strip() if name else ''`. -/
def Definition.format_name (name : Option String) : String :=
  match name with
  | none => ""
  | some s => if s = "" then "" else pyStrip (replaceSpaceDot s)

/-- `Definition.get_name`: `format_name(name) or 'auto-{}'.format(uuid4().hex)`;
the uuid hex digest is injected as `uuidHex`. -/
def Definition.get_name (uuidHex : String) (name : Option String) : String :=
  let f := Definition.format_name name
  if f = "" then "auto-" ++ uuidHex else f

/-- `Definition.__init__(name, version)` (uuid injected). -/
def Definition.init (uuidHex : String) (name : Option String)
    (version : String := CONST.DEFAULT_GRAPH_VERSION) : Definition :=
  let n := Definition.get_name uuidHex name
  { name := n, version := version, tag := Definition.get_tag n version,
    nodes := [], _non_root := [], _roots := none }

/-- `set(self.nodes) - self._non_root`, sorted: the expression the `roots`
property evaluates when the cache is unset or empty. -/
def Definition.computeRoots (d : Definition) : List String :=
  sortStrings ((d.nodes.map Prod.fst).filter (fun n => decide (n ∉ d._non_root)))

/-- The `roots` property: returns the cached `_roots` when that is a
non-empty list, otherwise computes, caches and returns the sorted roots.
Returns the value together with the (possibly cache-updated) definition. -/
def Definition.roots (d : Definition) : List String × Definition :=
  match d._roots with
  | some r =>
    if r.isEmpty then
      let r' := d.computeRoots
      (r', { d with _roots := some r' })
    else (r, d)
  | none =>
    let r' := d.computeRoots
    (r', { d with _roots := some r' })

/-- `name in self.nodes`. -/
def Definition.hasNode (d : Definition) (name : String) : Bool :=
  (alookup d.nodes name).isSome

/-- `self.nodes[name]` as an option. -/
def Definition.getNode (d : Definition) (name : String) : Option Node :=
  alookup d.nodes name

/-- `Definition.add_node`: `self.nodes[name] = Node(name, data)` — inserts or
overwrites; a fresh `Node` has an empty edge set, so re-adding discards the
node's previous out-edges; `_non_root` and the roots cache are untouched. -/
def Definition.add_node (d : Definition) (name : String) (data : String := "") : Definition :=
  { d with nodes := aset d.nodes name { name := name, data := data, edges := [] } }

/-- `Definition.add_edge` under the `validate_from_to` decorator: both
endpoints are checked (in the order `from_`, `to`) before the wrapped body
runs, so a failed validation returns `AddEdgeResult(False, NO_SUCH_NODE,
node)` with the definition untouched; on success `to` is added to `from_`'s
edge set and recorded in `_non_root`. -/
def Definition.add_edge (d : Definition) (from_ to_ : String) : AddEdgeResult × Definition :=
  if ¬ d.hasNode from_ then (.failure CONST.NO_SUCH_NODE from_, d)
  else if ¬ d.hasNode to_ then (.failure CONST.NO_SUCH_NODE to_, d)
  else
    (.ok,
      { d with
        nodes := d.nodes.map (fun p => if p.1 = from_ then (p.1, p.2.add_edge to_) else p),
        _non_root := sinsert d._non_root to_ })

/-- `Definition.has_edge` under `validate_from_to`, reduced to the truthiness
with which `can_transition` consumes it: a missing endpoint yields the falsy
`AddEdgeResult`, otherwise the boolean membership test runs. -/
def Definition.has_edge (d : Definition) (from_ to_ : String) : Bool :=
  if d.hasNode from_ ∧ d.hasNode to_ then
    match d.getNode from_ with
    | some n => n.has_edge to_
    | none => false
  else false

/-- A value as produced by ConfigObj for one `key=value` line: a scalar
string, or a list when the line held a comma-separated enumeration. -/
inductive ConfVal where
  | str (s : String) : ConfVal
  | list (l : List String) : ConfVal
deriving DecidableEq, Repr

/-- The `if not isinstance(x, list): x = [x]` coercion applied to `to` lists
and to the reserved keys. -/
def ConfVal.toList : ConfVal → List String
  | .str s => [s]
  | .list l => l

/-- Python `str(['a', 'b'])`. -/
def pyStrList (l : List String) : String :=
  "[" ++ String.intercalate ", " (l.map (fun s => "'" ++ s ++ "'")) ++ "]"

/-- How `'{}'.format` renders a ConfigObj value (used for the `version`
field, which the source stores raw and only ever formats into the tag). -/
def ConfVal.pyStr : ConfVal → String
  | .str s => s
  | .list l => pyStrList l

/-- Python `dict.pop(k, default)` on the working config mapping: the value at
the key (if any) and the mapping without that entry. -/
def popKey (m : List (String × ConfVal)) (k : String) :
    Option ConfVal × List (String × ConfVal) :=
  ((alookup m k), m.filter (fun p => decide (p.1 ≠ k)))

/-- `ConfigItem`: one parsed definition of transitions, with the reserved
keys `objects` and `force_stop` pulled out of the declarative block. -/
structure ConfigItem where
  def_ : Definition
  objects : List String
  force_stop : List String
deriving DecidableEq, Repr

/-- `ConfigItem._add_nodes_edges` with `add_nodes=True`: one pass over the
remaining `from = to[, to...]` lines adding every endpoint as a node. -/
def ConfigItem.addNodesPass (d : Definition) (body : List (String × ConfVal)) : Definition :=
  body.foldl
    (fun d p =>
      let to_ := p.2.toList
      to_.foldl (fun d t => d.add_node t "") (d.add_node p.1 ""))
    d

/-- `ConfigItem._add_nodes_edges` with `add_nodes=False`: the second pass
adding the actual edges (results of `add_edge` are discarded, as in the
source). -/
def ConfigItem.addEdgesPass (d : Definition) (body : List (String × ConfVal)) : Definition :=
  body.foldl
    (fun d p =>
      let to_ := p.2.toList
      to_.foldl (fun d t => (d.add_edge p.1 t).2) d)
    d

/-- `ConfigItem.parse_config_dict`: the one-key input dict is given as
`orig_key` (the bracketed header) plus `body` (the `key=value` lines in file
order); `uuidHex` feeds `Definition.get_name` when the header is empty.
Mirrors the source: normalize the name, pop `version` (default `1`), pop and
list-coerce `objects` and `force_stop`, run the two node/edge passes over
what remains, then recompute the tag. -/
def ConfigItem.parse_config_dict (uuidHex : String) (orig_key : String)
    (body : List (String × ConfVal)) : ConfigItem :=
  let def_name := Definition.get_name uuidHex (some orig_key)
  let pv := popKey body "version"
  let version := (pv.1.map ConfVal.pyStr).getD CONST.DEFAULT_GRAPH_VERSION
  let po := popKey pv.2 "objects"
  let objects := ((po.1.map ConfVal.toList).getD [])
  let pf := popKey po.2 "force_stop"
  let force_stop := ((pf.1.map ConfVal.toList).getD [])
  let d0 : Definition :=
    { name := def_name, version := version, tag := "",
      nodes := [], _non_root := [], _roots := none }
  let d1 := ConfigItem.addNodesPass d0 pf.2
  let d2 := ConfigItem.addEdgesPass d1 pf.2
  { def_ := { d2 with tag := Definition.get_tag def_name version },
    objects := objects, force_stop := force_stop }

/-- The persisted state record built by `StateMachine.get_transition_info`
(field names are the storage contract; `server_ctx`/`user_ctx` are opaque). -/
structure StateInfo where
  state_old : Option String
  state_current : String
  object_tag : String
  def_tag : String
  transition_ts_utc : String
  server_ctx : Option String
  user_ctx : Option String
  is_forced : Bool
deriving DecidableEq, Repr

/-- `RedisBackend`: the two Redis hashes, flattened to association lists
keyed by `(def_tag, object_tag)`; values are stored structurally because
JSON serialization round-trips the records exactly. -/
structure RedisBackend where
  current : List ((String × String) × StateInfo)
  history : List ((String × String) × List StateInfo)
deriving DecidableEq, Repr

/-- `RedisBackend.get_current_state_info`: `hget` on the current-state hash. -/
def RedisBackend.get_current_state_info (b : RedisBackend) (object_tag def_tag : String) :
    Option StateInfo :=
  alookup b.current (def_tag, object_tag)

/-- `RedisBackend.get_history`: `loads(history) if history else []`. -/
def RedisBackend.get_history (b : RedisBackend) (object_tag def_tag : String) :
    List StateInfo :=
  (alookup b.history (def_tag, object_tag)).getD []

/-- `RedisBackend.set_current_state_info`: overwrite the current-state slot
and append the same record to the object's history. -/
def RedisBackend.set_current_state_info (b : RedisBackend) (object_tag def_tag : String)
    (state_info : StateInfo) : RedisBackend :=
  { current := aset b.current (def_tag, object_tag) state_info,
    history := aset b.history (def_tag, object_tag)
      (b.get_history object_tag def_tag ++ [state_info]) }

/-- `StateMachine`: the per-process config mapping, the backend, and the
object-type-to-definition index built by `set_up`. -/
structure StateMachine where
  config : List (String × ConfigItem)
  backend : RedisBackend
  object_type_to_def : List (String × List String)
deriving DecidableEq, Repr

/-- `self.object_type_to_def.setdefault(object_type, []).append(def_tag)`. -/
def setdefaultAppend (m : List (String × List String)) (k v : String) :
    List (String × List String) :=
  match alookup m k with
  | some l => aset m k (l ++ [v])
  | none => m ++ [(k, [v])]

/-- `StateMachine.set_up`: invert each ConfigItem's `objects` list. -/
def StateMachine.set_up (config : List (String × ConfigItem)) :
    List (String × List String) :=
  config.foldl
    (fun m p => p.2.objects.foldl (fun m ot => setdefaultAppend m ot p.1) m)
    []

/-- `StateMachine.__init__(config, backend, run_set_up=True)`. -/
def StateMachine.init (config : List (String × ConfigItem)) (backend : RedisBackend) :
    StateMachine :=
  { config := config, backend := backend, object_type_to_def := StateMachine.set_up config }

/-- `StateMachine.get_object_tag`: `'{}.{}'.format(object_type, object_id)`. -/
def StateMachine.get_object_tag (object_type object_id : String) : String :=
  object_type ++ "." ++ object_id

/-- Python `'{}'.format(x)` on an optional string argument (`None` renders
as the text `None`). -/
def optFmt : Option String → String
  | none => "None"
  | some s => s

/-- The `Ambiguous input.` message of `StateMachine.get_def_tag`. -/
def ambiguousMsg (object_type : String) (tags : List String)
    (object_id state_new def_name def_version : Option String) : String :=
  "Ambiguous input. Object `" ++ object_type ++ "` maps to more than one definition `" ++
    String.intercalate ", " tags ++ "` (id:`" ++ optFmt object_id ++ "`, state_new:`" ++
    optFmt state_new ++ "`, def_name:`" ++ optFmt def_name ++ "`, def_version:`" ++
    optFmt def_version ++ "`)"

/-- `StateMachine.get_def_tag`: `none` models the uncaught `KeyError` /
`IndexError`, `.error` the raised `TransitionError` on an ambiguous mapping,
`.ok` the single definition tag. -/
def StateMachine.get_def_tag (sm : StateMachine) (object_type : String)
    (object_id state_new def_name def_version : Option String) :
    Option (Except String String) :=
  match alookup sm.object_type_to_def object_type with
  | none => none
  | some tags =>
    if tags.length > 1 then
      some (.error (ambiguousMsg object_type tags object_id state_new def_name def_version))
    else
      match tags with
      | [t] => some (.ok t)
      | _ => none

/-- `StateMachine.get_transition_info` (the UTC timestamp is injected as
`ts`; `is_forced` is `force or False`). -/
def StateMachine.get_transition_info (state_current : Option String)
    (state_new object_tag def_tag ts : String) (server_ctx user_ctx : Option String)
    (is_forced : Bool) : StateInfo :=
  { state_old := state_current, state_current := state_new, object_tag := object_tag,
    def_tag := def_tag, transition_ts_utc := ts, server_ctx := server_ctx,
    user_ctx := user_ctx, is_forced := is_forced }

/-- The `not found and target state is not one of roots` rejection message. -/
def rootRejectMsg (object_tag def_tag state_new : String) (roots : List String) : String :=
  "Object `" ++ object_tag ++ "` of `" ++ def_tag ++ "` not found and target state `" ++
    state_new ++ "` is not one of roots `" ++ String.intercalate ", " roots ++ "`"

/-- The `No transition found` rejection message. -/
def edgeRejectMsg (state_current state_new object_tag def_tag : String) : String :=
  "No transition found from `" ++ state_current ++ "` to `" ++ state_new ++ "` for `" ++
    object_tag ++ "` in `" ++ def_tag ++ "`"

/-- Replace the Definition stored under a config key (the in-place mutation
of the shared `config[def_tag].def_` object performed by the lazy roots
cache). -/
def StateMachine.setDef (sm : StateMachine) (def_tag : String) (d : Definition) :
    StateMachine :=
  { sm with
    config := sm.config.map (fun p => if p.1 = def_tag then (p.1, { p.2 with def_ := d }) else p) }

/-- `StateMachine.can_transition`: `none` models the uncaught `KeyError` on
an unknown `def_tag`; otherwise the 4-tuple `(ok, reason, state_current,
state_new)` plus the machine (whose definition may have acquired a roots
cache). The backend read uses `config.def_.tag`, as in the source; the
`roots` property is only evaluated when no current-state record exists
(short-circuit of `and`), and the edge check only runs when the stored
`state_current` string is truthy. -/
def StateMachine.can_transition (sm : StateMachine) (object_tag state_new def_tag : String)
    (force : Bool := false) :
    Option ((Bool × String × Option String × String) × StateMachine) :=
  match alookup sm.config def_tag with
  | none => none
  | some config =>
    let state_current_info := sm.backend.get_current_state_info object_tag config.def_.tag
    let state_current : Option String := state_current_info.map (·.state_current)
    if force ∧ config.def_.hasNode state_new then
      some ((true, "", state_current, state_new), sm)
    else if state_new ∈ config.force_stop then
      some ((true, "", state_current, state_new), sm)
    else
      match state_current_info with
      | none =>
        let rd := config.def_.roots
        let sm1 := sm.setDef def_tag rd.2
        if state_new ∉ rd.1 then
          some ((false, rootRejectMsg object_tag config.def_.tag state_new rd.1,
            none, state_new), sm1)
        else
          some ((true, "", none, state_new), sm1)
      | some info =>
        if info.state_current = "" then
          some ((true, "", some info.state_current, state_new), sm)
        else if ¬ config.def_.has_edge info.state_current state_new then
          some ((false, edgeRejectMsg info.state_current state_new object_tag def_tag,
            some info.state_current, state_new), sm)
        else
          some ((true, "", some info.state_current, state_new), sm)

/-- `StateMachine.transition`: validate, then on success build the state
record and hand it to the backend's combined write; on failure raise
(`.error`) or return the rejection tuple, per `raise_on_error`. -/
def StateMachine.transition (sm : StateMachine) (object_tag state_new def_tag ts : String)
    (server_ctx user_ctx : Option String) (force raise_on_error : Bool) :
    Option (Except String ((Bool × String × Option String × String) × StateMachine)) :=
  match sm.can_transition object_tag state_new def_tag force with
  | none => none
  | some ((ok, reason, state_current, _), sm1) =>
    if ok then
      let info := StateMachine.get_transition_info state_current state_new object_tag
        def_tag ts server_ctx user_ctx force
      some (.ok ((ok, reason, state_current, state_new),
        { sm1 with backend := sm1.backend.set_current_state_info object_tag def_tag info }))
    else if raise_on_error then
      some (.error reason)
    else
      some (.ok ((ok, reason, state_current, state_new), sm1))

/-- `StateMachine.get_current_state_info`: the backend record with
`object_tag`/`def_tag` stamped onto it. -/
def StateMachine.get_current_state_info (sm : StateMachine) (object_tag def_tag : String) :
    Option StateInfo :=
  (sm.backend.get_current_state_info object_tag def_tag).map
    (fun s => { s with object_tag := object_tag, def_tag := def_tag })

/-- `StateMachine.get_history`: each serialized element loaded back. -/
def StateMachine.get_history (sm : StateMachine) (object_tag def_tag : String) :
    List StateInfo :=
  sm.backend.get_history object_tag def_tag

/-- The caller-supplied arguments of `transition_to.__init__` (the service
handle is implicit: the state machine is passed to the run function). -/
structure TransitionToArgs where
  object_type : String
  object_id : String
  state_new : String
  def_name : Option String
  def_version : Option String
  user_ctx : Option String
  force : Bool
deriving DecidableEq, Repr

/-- The `Unknown object type` message raised in `transition_to.__enter__`. -/
def unknownObjectTypeMsg (t : TransitionToArgs) : String :=
  "Unknown object type `" ++ t.object_type ++ "` (id:`" ++ t.object_id ++ "`, state_new:`" ++
    t.state_new ++ "`, def_name:`" ++ optFmt t.def_name ++ "`, def_version:`" ++
    optFmt t.def_version ++ "`)"

/-- Outcome of executing a `with transition_to(...)` block to completion. -/
inductive ScopeOutcome where
  /-- An uncaught `KeyError`/`IndexError` escaped (unknown definition tag). -/
  | keyError : ScopeOutcome
  /-- `__enter__` raised `TransitionError`; the body never ran. -/
  | enterError (msg : String) : ScopeOutcome
  /-- The body raised; `__exit__` returned a falsy value without committing,
  so the exception propagates and the machine is left as `sm`. -/
  | bodyError (msg : String) (sm : StateMachine) : ScopeOutcome
  /-- The commit inside `__exit__` raised `TransitionError`. -/
  | exitError (msg : String) : ScopeOutcome
  /-- The body completed and `__exit__` committed the transition. -/
  | committed (sm : StateMachine) : ScopeOutcome
deriving DecidableEq, Repr

/-- `ScopeOutcome.committed`, as a Boolean discriminator. -/
def ScopeOutcome.isCommitted : ScopeOutcome → Bool
  | .committed _ => true
  | _ => false

/-- The part of `transition_to` shared by both definition-resolution paths:
`__enter__`'s `can_transition` check, the body run on the yielded context,
and `__exit__` (commit only when the body did not raise; timestamp `ts` is
the commit-time clock). -/
def transition_to_validate_commit (sm : StateMachine) (t : TransitionToArgs)
    (ts object_tag def_tag : String)
    (body : Option String → Except String (Option String)) : ScopeOutcome :=
  match sm.can_transition object_tag t.state_new def_tag t.force with
  | none => .keyError
  | some ((ok, reason, _, _), sm1) =>
    if ok then
      match body t.user_ctx with
      | .error e => .bodyError e sm1
      | .ok ctx =>
        match sm1.transition object_tag t.state_new def_tag ts none ctx t.force true with
        | none => .keyError
        | some (.error m) => .exitError m
        | some (.ok (_, sm2)) => .committed sm2
    else .enterError reason

/-- A full `with transition_to(...)` run: `__init__` computes the object tag
and sets `def_tag = ''`; `__enter__` resolves the tag via `get_def_tag` only
when no explicit `def_name` was supplied (an explicit name leaves `def_tag`
as the empty string, exactly as in the source), validates, and yields the
context to `body`; `__exit__` commits only on a non-raising body. -/
def transition_to_run (sm : StateMachine) (t : TransitionToArgs) (ts : String)
    (body : Option String → Except String (Option String)) : ScopeOutcome :=
  let object_tag := StateMachine.get_object_tag t.object_type t.object_id
  if t.def_name.getD "" = "" then
    if ¬ (alookup sm.object_type_to_def t.object_type).isSome then
      .enterError (unknownObjectTypeMsg t)
    else
      match sm.get_def_tag t.object_type (some t.object_id) (some t.state_new)
          t.def_name t.def_version with
      | none => .keyError
      | some (.error m) => .enterError m
      | some (.ok def_tag) => transition_to_validate_commit sm t ts object_tag def_tag body
  else
    transition_to_validate_commit sm t ts object_tag "" body

/-!  Specification-side decision procedure and transition-sequence runner. -/

/-- The transition decision exactly as the spec's §4.5 first-match order
words it (this is the claim-side definition for comparison with
`StateMachine.can_transition`): fetch the current state; allow a forced
transition to any known node; allow any force-stop target; with no current
state, reject exactly when the target is not a root (reason naming object,
definition tag, target and the full root list); with a current state, reject
exactly when the definition has no edge from it to the target (reason naming
both states, the object and the definition); otherwise allow. -/
def can_transition_spec (sm : StateMachine) (object_tag state_new def_tag : String)
    (force : Bool) : Option (Bool × String × Option String × String) :=
  match alookup sm.config def_tag with
  | none => none
  | some config =>
    let info := sm.backend.get_current_state_info object_tag config.def_.tag
    let cur : Option String := info.map (·.state_current)
    if force ∧ config.def_.hasNode state_new then some (true, "", cur, state_new)
    else if state_new ∈ config.force_stop then some (true, "", cur, state_new)
    else
      match info with
      | none =>
        let roots := (config.def_.roots).1
        if state_new ∉ roots then
          some (false, rootRejectMsg object_tag config.def_.tag state_new roots,
            none, state_new)
        else some (true, "", none, state_new)
      | some i =>
        if ¬ config.def_.has_edge i.state_current state_new then
          some (false, edgeRejectMsg i.state_current state_new object_tag def_tag,
            some i.state_current, state_new)
        else some (true, "", some i.state_current, state_new)

/-- The per-call arguments of one `transition` invocation in a sequence. -/
structure TCall where
  stateNew : String
  ts : String
  serverCtx : Option String
  userCtx : Option String
  force : Bool
deriving DecidableEq, Repr

/-- One successful `transition` call: `some` of the resulting machine when
the call returned (did not raise) with `ok = true`, else `none`. -/
def stepSuccess (sm : StateMachine) (o d : String) (c : TCall) : Option StateMachine :=
  match sm.transition o c.stateNew d c.ts c.serverCtx c.userCtx c.force true with
  | some (.ok (r, sm1)) => if r.1 then some sm1 else none
  | _ => none

/-- A sequence of `transition` calls on the same `(object_tag, def_tag)`
pair, each required to succeed. -/
def runSuccessful (sm : StateMachine) (o d : String) : List TCall → Option StateMachine
  | [] => some sm
  | c :: rest =>
    match stepSuccess sm o d c with
    | some sm1 => runSuccessful sm1 o d rest
    | none => none

/-!  Concrete fixtures: the declarative example of §6 of the spec, parsed. -/

/-- The `key=value` lines of the §6 example, in file order, as ConfigObj
produces them (comma lists become lists, single values stay scalars). -/
def ordersBody : List (String × ConfVal) :=
  [("objects", .list ["order", "priority.order"]),
   ("force_stop", .str "canceled"),
   ("version", .str "1"),
   ("new", .str "submitted"),
   ("submitted", .str "ready"),
   ("ready", .str "sent_to_client"),
   ("sent_to_client", .list ["client_confirmed", "client_rejected"])]

/-- The §6 example parsed (header `[Definition Name]`). -/
def ordersCI : ConfigItem := ConfigItem.parse_config_dict "u0" "Definition Name" ordersBody

/-- A state machine over the parsed §6 example with an empty backend. -/
def ordersSM : StateMachine :=
  StateMachine.init [("Definition.Name.v1", ordersCI)] { current := [], history := [] }

/-!  Helper lemmas. -/

theorem alookup_aset_self {κ α : Type} [DecidableEq κ] (m : List (κ × α)) (k : κ) (v : α) :
    alookup (aset m k v) k = some v := by
  induction m with
  | nil => simp [aset, alookup]
  | cons p rest ih =>
    by_cases h : p.1 = k
    · simp [aset, alookup, h]
    · simp [aset, alookup, h, ih]

theorem alookup_keys_of_mem {κ α : Type} [DecidableEq κ] (m : List (κ × α)) (k : κ) (v : α)
    (h : (alookup m k).isSome = true) :
    (aset m k v).map Prod.fst = m.map Prod.fst := by
  induction m with
  | nil => simp [alookup] at h
  | cons p rest ih =>
    by_cases hp : p.1 = k
    · simp [aset, hp]
    · simp [alookup, hp] at h
      simp [aset, hp, ih h]

theorem getLast?_append_singleton {α : Type} (l : List α) (a : α) :
    (l ++ [a]).getLast? = some a := by
  simp

/-- `can_transition` never writes to the backend (it may only populate the
definition's roots cache). -/
theorem can_transition_backend_eq {sm sm' : StateMachine} {o n d : String} {f : Bool}
    {r : Bool × String × Option String × String}
    (h : sm.can_transition o n d f = some (r, sm')) : sm'.backend = sm.backend := by
  simp only [StateMachine.can_transition] at h
  repeat' split at h
  all_goals first
    | exact Option.noConfusion h
    | (injection h with h'; injection h' with h1 h2; subst h2; rfl)

/-- A `transition` call with `raise_on_error = true` that returned `.ok`
succeeded (`ok = true`) and performed exactly the combined backend write of
`set_current_state_info` for some record whose `state_current` is the target
state. -/
theorem transition_ok_effects {sm sm' : StateMachine} {o n d ts : String}
    {sc uc : Option String} {f : Bool} {r : Bool × String × Option String × String}
    (h : sm.transition o n d ts sc uc f true = some (.ok (r, sm'))) :
    r.1 = true ∧
    ∃ rec : StateInfo, rec.state_current = n ∧
      sm'.backend.current = aset sm.backend.current (d, o) rec ∧
      sm'.backend.history = aset sm.backend.history (d, o)
        (sm.backend.get_history o d ++ [rec]) := by
  simp only [StateMachine.transition] at h
  split at h
  · exact Option.noConfusion h
  · rename_i ok reason state_current s4 sm1 heq
    split at h
    · rename_i hok
      injection h with h'
      injection h' with h''
      injection h'' with h1 h2
      have hb : sm1.backend = sm.backend := can_transition_backend_eq heq
      subst h2
      refine ⟨?_, StateMachine.get_transition_info state_current n o d ts sc uc f, rfl, ?_, ?_⟩
      · rw [← h1]; exact hok
      · simp [RedisBackend.set_current_state_info, hb]
      · simp [RedisBackend.set_current_state_info, hb]
    · simp at h

/-- `stepSuccess` in terms of the backend write it performs. -/
theorem stepSuccess_effects {sm sm1 : StateMachine} {o d : String} {c : TCall}
    (h : stepSuccess sm o d c = some sm1) :
    ∃ rec : StateInfo, rec.state_current = c.stateNew ∧
      sm1.backend.current = aset sm.backend.current (d, o) rec ∧
      sm1.backend.history = aset sm.backend.history (d, o)
        (sm.backend.get_history o d ++ [rec]) := by
  simp only [stepSuccess] at h
  split at h
  · rename_i r sm2 heq
    split at h
    · injection h with h2
      subst h2
      exact (transition_ok_effects heq).2
    · exact Option.noConfusion h
  · exact Option.noConfusion h

/-- Invariant of a successful transition sequence: the history at the
`(def_tag, object_tag)` key grows by exactly the requested target states in
call order, and (once at least one call ran) the current-state slot holds
the last history record. -/
theorem runSuccessful_invariant {o d : String} :
    ∀ (calls : List TCall) (sm sm' : StateMachine),
      runSuccessful sm o d calls = some sm' →
      ((sm'.backend.get_history o d).map StateInfo.state_current
          = (sm.backend.get_history o d).map StateInfo.state_current
            ++ calls.map TCall.stateNew)
      ∧ (calls = [] → sm' = sm)
      ∧ (calls ≠ [] → alookup sm'.backend.current (d, o)
            = (sm'.backend.get_history o d).getLast?) := by
  intro calls
  induction calls with
  | nil =>
    intro sm sm' h
    simp only [runSuccessful] at h
    injection h with h2
    subst h2
    exact ⟨by simp, fun _ => rfl, fun hne => absurd rfl hne⟩
  | cons c rest ih =>
    intro sm sm' h
    simp only [runSuccessful] at h
    split at h
    · rename_i sm1 heq
      obtain ⟨rec, hrec, hcur, hhist⟩ := stepSuccess_effects heq
      have hh1 : sm1.backend.get_history o d = sm.backend.get_history o d ++ [rec] := by
        simp [RedisBackend.get_history, hhist, alookup_aset_self]
      obtain ⟨iha, ihb, ihc⟩ := ih sm1 sm' h
      refine ⟨?_, fun hne => absurd hne (by simp), fun _ => ?_⟩
      · rw [iha, hh1]
        simp [hrec]
      · by_cases hrest : rest = []
        · subst hrest
          have hsm : sm' = sm1 := ihb rfl
          subst hsm
          rw [hh1, getLast?_append_singleton]
          simp [hcur, alookup_aset_self]
        · exact ihc hrest
    · exact Option.noConfusion h

/-!  Claim theorems. -/

/-- A two-node definition whose roots were read (and therefore cached)
before any edge existed. -/
def d3a : Definition :=
  ((Definition.init "u3" (some "d3")).add_node "a" "").add_node "b" ""

/-- The same definition after the cache-populating read and `add_edge(a, b)`. -/
def d3c : Definition := (((d3a.roots).2).add_edge "a" "b").2

/-- Claim C3: the claim states that membership in `roots` always coincides
with having no incoming edge, "including when roots was already read before
the edge was added".  The code violates exactly that clause: after a prior
`roots` read, `add_edge("a", "b")` succeeds and the edge exists, yet `roots`
still reports the stale cached `["a", "b"]` (so `b` is reported as a root
even though an edge targets it).  Without the prior read the recomputation
is correct (`["a"]`), confirming the claim describes the intended
behaviour; the never-invalidated `_roots` cache is the code bug the spec's
design notes flag. -/
theorem claim3_roots_cache_stale :
    ((((d3a.roots).2).add_edge "a" "b").1 = AddEdgeResult.ok
    ∧ d3c.has_edge "a" "b" = true)
    ∧ ((d3c.roots).1 = ["a", "b"]
    ∧ "b" ∈ (d3c.roots).1)
    ∧ (((d3a.add_edge "a" "b").2).roots).1 = ["a"] := by decide

/-- Claim C4: `add_edge` on a definition missing either endpoint fails with
`NO_SUCH_NODE`, `details` carrying the offending node name (`from_` is
checked first), and returns the definition completely unchanged — both
endpoints are validated by the decorator before the mutating body runs. -/
theorem claim4_add_edge_validation (d : Definition) (from_ to_ : String) :
    (d.hasNode from_ = false →
      d.add_edge from_ to_ = (.failure CONST.NO_SUCH_NODE from_, d))
    ∧ (d.hasNode from_ = true → d.hasNode to_ = false →
      d.add_edge from_ to_ = (.failure CONST.NO_SUCH_NODE to_, d)) := by
  constructor
  · intro h
    simp [Definition.add_edge, h]
  · intro h1 h2
    simp [Definition.add_edge, h1, h2]

/-- A two-node definition used as a concrete witness input. -/
def dW : Definition :=
  ((Definition.init "u4" (some "w")).add_node "a" "").add_node "b" ""

/-- Witness for C4 at a concrete definition: a missing `from_`, then a
missing `to_`, both leave `dW` untouched. -/
theorem claim4_witness :
    dW.add_edge "missing" "b" = (.failure CONST.NO_SUCH_NODE "missing", dW)
    ∧ dW.add_edge "a" "missing" = (.failure CONST.NO_SUCH_NODE "missing", dW) :=
  ⟨(claim4_add_edge_validation dW "missing" "b").1 (by decide),
   (claim4_add_edge_validation dW "a" "missing").2 (by decide) (by decide)⟩

/-- Claim C7: parsing the declarative example of §6 yields exactly the six
declared states as nodes with exactly the declared edges, roots `["new"]`,
`objects`/`force_stop`/`version` popped into the ConfigItem's fields
(scalars coerced to one-element lists) and never present as nodes; a block
without a `version` line gets the default `1`. -/
theorem claim7_parse_round_trip :
    ordersCI.def_.nodes =
      [("new", { name := "new", data := "", edges := ["submitted"] }),
       ("submitted", { name := "submitted", data := "", edges := ["ready"] }),
       ("ready", { name := "ready", data := "", edges := ["sent_to_client"] }),
       ("sent_to_client", { name := "sent_to_client", data := "", edges := ["client_confirmed", "client_rejected"] }),
       ("client_confirmed", { name := "client_confirmed", data := "", edges := [] }),
       ("client_rejected", { name := "client_rejected", data := "", edges := [] })]
    ∧ (ordersCI.def_.roots).1 = ["new"]
    ∧ (ordersCI.def_.getNode "sent_to_client").map Node.edges
        = some ["client_confirmed", "client_rejected"]
    ∧ ordersCI.objects = ["order", "priority.order"]
    ∧ ordersCI.force_stop = ["canceled"]
    ∧ ordersCI.def_.version = "1"
    ∧ ordersCI.def_.tag = "Definition.Name.v1"
    ∧ ordersCI.def_.hasNode "version" = false
    ∧ ordersCI.def_.hasNode "objects" = false
    ∧ ordersCI.def_.hasNode "force_stop" = false
    ∧ (ConfigItem.parse_config_dict "u1" "X" [("a", .str "b")]).def_.version
        = CONST.DEFAULT_GRAPH_VERSION := by decide

/-- Claim C8: the definition name is the input normalized by replacing
spaces with dots and trimming, with an auto-generated `auto-{uuid}` name
when the input is absent or normalizes to the empty string, and the tag is
always `"{name}.v{version}"` over the normalized name. -/
theorem claim8_name_normalization_tag :
    (∀ (u v : String) (nm : Option String),
      (Definition.init u nm v).tag = (Definition.init u nm v).name ++ ".v" ++ v)
    ∧ (∀ (u v s : String),
      (Definition.init u (some s) v).name
        = (if pyStrip (replaceSpaceDot s) = "" then "auto-" ++ u
           else pyStrip (replaceSpaceDot s)))
    ∧ (∀ (u v : String), (Definition.init u none v).name = "auto-" ++ u) := by
  refine ⟨fun u v nm => rfl, fun u v s => ?_, fun u v => rfl⟩
  by_cases hs : s = ""
  · subst hs
    simp [Definition.init, Definition.get_name, Definition.format_name,
      show pyStrip (replaceSpaceDot "") = "" from rfl]
  · simp [Definition.init, Definition.get_name, Definition.format_name, hs]

/-- Claim C9: `add_node` on an existing name succeeds (it is a total
overwrite), replacing the node with one carrying the new data and an empty
edge set — every outgoing edge added since the first `add_node` is
discarded — while the key set, `_non_root` and the roots cache stay as they
were. -/
theorem claim9_add_node_readd (d : Definition) (name data : String)
    (h : d.hasNode name = true) :
    (d.add_node name data).getNode name = some { name := name, data := data, edges := [] }
    ∧ ((d.add_node name data).nodes.map Prod.fst) = d.nodes.map Prod.fst
    ∧ (d.add_node name data)._non_root = d._non_root
    ∧ (d.add_node name data)._roots = d._roots := by
  refine ⟨?_, ?_, rfl, rfl⟩
  · simp [Definition.add_node, Definition.getNode, alookup_aset_self]
  · exact alookup_keys_of_mem _ _ _ (by simpa [Definition.hasNode] using h)

/-- `dW` after `add_edge("a", "b")`: node `a` has an outgoing edge. -/
def dFG : Definition := (dW.add_edge "a" "b").2

/-- Witness for C9: re-adding `a` after `a → b` was added discards the edge
(the documented foot-gun). -/
theorem claim9_witness :
    (dFG.add_node "a" "").getNode "a" = some { name := "a", data := "", edges := [] }
    ∧ ((dFG.add_node "a" "").nodes.map Prod.fst) = dFG.nodes.map Prod.fst
    ∧ (dFG.add_node "a" "")._non_root = dFG._non_root
    ∧ (dFG.add_node "a" "")._roots = dFG._roots :=
  claim9_add_node_readd dFG "a" "" (by decide)

/-- Claim C1: for any machine whose stored current-state strings are
non-empty (every record the engine itself writes carries the non-empty name
of a declared state), `can_transition` returns exactly what the spec's
first-match decision order prescribes, including the rejection reasons. -/
theorem claim1_can_transition_decision_order (sm : StateMachine)
    (object_tag state_new def_tag : String) (force : Bool)
    (h : ∀ (dt : String) (i : StateInfo),
      alookup sm.backend.current (dt, object_tag) = some i → i.state_current ≠ "") :
    (sm.can_transition object_tag state_new def_tag force).map Prod.fst
      = can_transition_spec sm object_tag state_new def_tag force := by
  simp only [StateMachine.can_transition, can_transition_spec]
  cases hl : alookup sm.config def_tag with
  | none => rfl
  | some config =>
    cases hcur : sm.backend.get_current_state_info object_tag config.def_.tag with
    | none =>
      simp only [hcur, Option.map_none]
      split_ifs <;> rfl
    | some i =>
      have hne : i.state_current ≠ "" :=
        h config.def_.tag i (by simpa [RedisBackend.get_current_state_info] using hcur)
      simp only [hcur, Option.map_some]
      split_ifs with h1 h2 h3 <;> simp_all

/-- Witness for C1 at the parsed §6 machine with an empty backend (so the
hypothesis holds vacuously): a fresh object, non-root target. -/
theorem claim1_witness :
    (ordersSM.can_transition "order.1" "ready" "Definition.Name.v1" false).map Prod.fst
      = can_transition_spec ordersSM "order.1" "ready" "Definition.Name.v1" false :=
  claim1_can_transition_decision_order ordersSM "order.1" "ready" "Definition.Name.v1" false
    (by intro dt i hi; simp [ordersSM, StateMachine.init, alookup] at hi)

/-- Claim C2: starting from a backend holding nothing for the
`(object_tag, def_tag)` pair, after `N` successful `transition` calls the
history holds exactly `N` records whose targets are the requested states in
call order, and `get_current_state_info` is the last history record with
`object_tag`/`def_tag` stamped onto it. -/
theorem claim2_history_append_law (sm sm' : StateMachine) (o d : String)
    (calls : List TCall)
    (h : runSuccessful sm o d calls = some sm')
    (h0 : sm.backend.get_history o d = [])
    (hc : alookup sm.backend.current (d, o) = none) :
    (sm'.get_history o d).map StateInfo.state_current = calls.map TCall.stateNew
    ∧ (sm'.get_history o d).length = calls.length
    ∧ sm'.get_current_state_info o d
        = ((sm'.get_history o d).getLast?).map
            (fun s => { s with object_tag := o, def_tag := d }) := by
  obtain ⟨ha, hb, hcc⟩ := runSuccessful_invariant calls sm sm' h
  have ha' : (sm'.get_history o d).map StateInfo.state_current
      = calls.map TCall.stateNew := by
    simpa [StateMachine.get_history, h0] using ha
  refine ⟨ha', ?_, ?_⟩
  · have hlen := congrArg List.length ha'
    simpa using hlen
  · cases calls with
    | nil =>
      have hsm := hb rfl
      subst hsm
      simp [StateMachine.get_current_state_info, StateMachine.get_history,
        RedisBackend.get_current_state_info, hc, h0]
    | cons c rest =>
      have hcur := hcc (by simp)
      simp [StateMachine.get_current_state_info, RedisBackend.get_current_state_info,
        StateMachine.get_history, hcur]

/-- The §6 machine's transition calls for the C2 witness: root start, then
one declared edge. -/
def c2calls : List TCall :=
  [{ stateNew := "new", ts := "t1", serverCtx := none, userCtx := none, force := false },
   { stateNew := "submitted", ts := "t2", serverCtx := none, userCtx := none, force := false }]

/-- The machine after running the C2 witness calls. -/
def c2SM : StateMachine :=
  (runSuccessful ordersSM "order.1" "Definition.Name.v1" c2calls).getD ordersSM

/-- Witness for C2: both calls succeed on the fresh §6 machine and the
history/current-state law holds at the result. -/
theorem claim2_witness :
    (c2SM.get_history "order.1" "Definition.Name.v1").map StateInfo.state_current
        = c2calls.map TCall.stateNew
    ∧ (c2SM.get_history "order.1" "Definition.Name.v1").length = c2calls.length
    ∧ c2SM.get_current_state_info "order.1" "Definition.Name.v1"
        = ((c2SM.get_history "order.1" "Definition.Name.v1").getLast?).map
            (fun s => { s with object_tag := "order.1", def_tag := "Definition.Name.v1" }) :=
  claim2_history_append_law ordersSM c2SM "order.1" "Definition.Name.v1" c2calls
    (by decide) (by decide) (by decide)

/-- Claim C5: when the scope body raises, `__exit__` does not commit: the
body's exception propagates (the outcome is `bodyError` carrying it) and
the machine's backend is exactly the one from before the scope was
entered. -/
theorem claim5_scope_abort_no_write (sm : StateMachine) (t : TransitionToArgs)
    (ts e msg : String) (sm' : StateMachine)
    (h : transition_to_run sm t ts (fun _ => .error e) = .bodyError msg sm') :
    msg = e ∧ sm'.backend = sm.backend := by
  simp only [transition_to_run, transition_to_validate_commit] at h
  repeat' split at h
  all_goals first
    | exact ScopeOutcome.noConfusion h
    | (injection h with h1 h2
       subst h2
       exact ⟨h1.symm, can_transition_backend_eq (by assumption)⟩)

/-- The implicit-definition `transition_to` arguments over the §6 machine. -/
def tImp : TransitionToArgs :=
  { object_type := "order", object_id := "1", state_new := "new",
    def_name := none, def_version := none, user_ctx := none, force := false }

/-- The machine left behind by an aborted scope run (for the C5 witness). -/
def c5SM : StateMachine :=
  match transition_to_run ordersSM tImp "t0" (fun _ => .error "boom") with
  | .bodyError _ sm => sm
  | _ => ordersSM

/-- Witness for C5: a concrete aborted scope over the §6 machine leaves the
backend untouched and propagates the body's exception. -/
theorem claim5_witness : "boom" = "boom" ∧ c5SM.backend = ordersSM.backend :=
  claim5_scope_abort_no_write ordersSM tImp "t0" "boom" "boom" c5SM (by decide)

/-- Explicit-definition `transition_to` arguments: the caller supplies
`def_name`/`def_version` whose derived tag is registered in the config. -/
def tExp : TransitionToArgs :=
  { tImp with def_name := some "Definition.Name", def_version := some "1" }

/-- Claim C6: the claim (and §4.6 of the spec) says an explicit `def_name`
(plus optional `def_version`) is resolved to the derived tag and used for
validation; the code never derives it — `def_tag` stays `''` and
`can_transition` hits an uncaught `KeyError` on `config['']` — even though
the tag derived from the supplied name and version is present in the
config.  The `get_def_tag` path (no `def_name`) works and commits, as the
claim describes. -/
theorem claim6_explicit_def_name_unresolved :
    transition_to_run ordersSM tExp "t0" (fun c => .ok c) = ScopeOutcome.keyError
    ∧ alookup ordersSM.config (Definition.get_tag "Definition.Name" "1") = some ordersCI
    ∧ (transition_to_run ordersSM tImp "t0" (fun c => .ok c)).isCommitted = true := by
  decide

/-- Claim C10: when the stored current state `s` of an object is in the
definition's `force_stop` list, `can_transition` with `force = false` still
allows the (self-)transition to `s` — there is no target-differs-from-
current check — and `transition` succeeds, appending exactly one more
record (whose `state_current` is again `s`, so the hypotheses hold again
for the next call). -/
theorem claim10_force_stop_self_transition (sm : StateMachine)
    (object_tag s def_tag ts : String) (sc uc : Option String)
    (ci : ConfigItem) (rec : StateInfo)
    (hci : alookup sm.config def_tag = some ci)
    (hrec : alookup sm.backend.current (ci.def_.tag, object_tag) = some rec)
    (hs : rec.state_current = s)
    (hfs : s ∈ ci.force_stop) :
    sm.can_transition object_tag s def_tag false = some ((true, "", some s, s), sm)
    ∧ sm.transition object_tag s def_tag ts sc uc false true
        = some (.ok ((true, "", some s, s),
            { sm with backend := (sm.backend.set_current_state_info object_tag def_tag
                (StateMachine.get_transition_info (some s) s object_tag def_tag ts sc uc false)) }))
    ∧ RedisBackend.get_history
        (sm.backend.set_current_state_info object_tag def_tag
          (StateMachine.get_transition_info (some s) s object_tag def_tag ts sc uc false))
        object_tag def_tag
      = sm.backend.get_history object_tag def_tag
          ++ [StateMachine.get_transition_info (some s) s object_tag def_tag ts sc uc false] := by
  have hct : sm.can_transition object_tag s def_tag false
      = some ((true, "", some s, s), sm) := by
    simp [StateMachine.can_transition, hci, RedisBackend.get_current_state_info, hrec, hfs, hs]
  refine ⟨hct, ?_, ?_⟩
  · simp [StateMachine.transition, hct]
  · simp [RedisBackend.set_current_state_info, RedisBackend.get_history, alookup_aset_self]

/-- The §6 machine after one transition of `order.7` into the force-stop
state `canceled` (for the C10 witness). -/
def c10SM : StateMachine :=
  match ordersSM.transition "order.7" "canceled" "Definition.Name.v1" "t1" none none false true with
  | some (.ok (_, sm)) => sm
  | _ => ordersSM

/-- The record stored for `order.7` by that first transition. -/
def c10rec : StateInfo :=
  StateMachine.get_transition_info none "canceled" "order.7" "Definition.Name.v1" "t1"
    none none false

/-- Witness for C10: `order.7` currently sits in the force-stop state
`canceled`; transitioning to `canceled` again is allowed and appends one
more record. -/
theorem claim10_witness :
    c10SM.can_transition "order.7" "canceled" "Definition.Name.v1" false
      = some ((true, "", some "canceled", "canceled"), c10SM)
    ∧ c10SM.transition "order.7" "canceled" "Definition.Name.v1" "t2" none none false true
        = some (.ok ((true, "", some "canceled", "canceled"),
            { c10SM with backend := (c10SM.backend.set_current_state_info "order.7"
                "Definition.Name.v1"
                (StateMachine.get_transition_info (some "canceled") "canceled" "order.7"
                  "Definition.Name.v1" "t2" none none false)) }))
    ∧ RedisBackend.get_history
        (c10SM.backend.set_current_state_info "order.7" "Definition.Name.v1"
          (StateMachine.get_transition_info (some "canceled") "canceled" "order.7"
            "Definition.Name.v1" "t2" none none false))
        "order.7" "Definition.Name.v1"
      = c10SM.backend.get_history "order.7" "Definition.Name.v1"
          ++ [StateMachine.get_transition_info (some "canceled") "canceled" "order.7"
              "Definition.Name.v1" "t2" none none false] :=
  claim10_force_stop_self_transition c10SM "order.7" "canceled" "Definition.Name.v1" "t2"
    none none ordersCI c10rec (by decide) (by decide) (by decide) (by decide)

end BST
